import Mathlib

/-!
Shallow embedding of `src/main.js`: the session-acquisition and
connection-lifecycle state machine of a messaging bot.

Filesystem effects are modelled by an explicit `Store` (the per-session
auth directory), HTTP fetches by an oracle `fetch : Nat → Option SessionFileSet`
(attempt number to result; `none` covers both a thrown request error and a
response whose `files` field is falsy, since `fetchSessionFromManager`
returns `null` on error and the loop in `getAuthState` retries on any falsy
value), per-file write failures by an oracle `wfail : String → Bool`, and
parse failures in `useMultiFileAuthState` by an oracle
`corrupt : List (String × String) → Bool` on the directory contents.
Configuration constants (`RECONNECT_INTERVAL`, `SESSION_RETRY_INTERVAL`)
live in `settings.js`, which is not part of the analysed sources, so they
are parameters of the model.
-/

/-- A `SessionFileSet`: the `files` field of the manager response, a JS
object mapping filename to raw content (`Object.entries` yields each key
once, in order). -/
abbrev SessionFileSet := List (String × String)

/-- The session directory `./bot_session/{SESSION_ID}`: `none` when the
directory does not exist, otherwise its files. -/
structure Store where
  dir : Option (List (String × String))
  deriving Repr, DecidableEq

/-- Model of `fs.writeFileSync(path.join(AUTH_DIR, n), c)`: overwrite the entry for
`n` if present, else append it. -/
def setEntry (d : List (String × String)) (n c : String) : List (String × String) :=
  if d.any (fun p => p.1 = n) then
    d.map (fun p => if p.1 = n then (n, c) else p)
  else
    d ++ [(n, c)]

/-- Reading one file of the directory (by name). -/
def getFile (d : List (String × String)) (n : String) : Option String :=
  (d.find? (fun p => p.1 = n)).map (fun p => p.2)

/-- Model of `hasLocalSession()`: `fs.existsSync(path.join(AUTH_DIR, 'creds.json'))`. -/
def hasLocalSession (st : Store) : Bool :=
  match st.dir with
  | none => false
  | some d => d.any (fun p => p.1 = "creds.json")

/-- The filenames `saveSessionLocally` actually passes to `writeFileSync`:
the whole `for` loop sits inside one `try`, so the first throwing write
aborts the loop and the later entries are never attempted. -/
def attemptedWrites (wfail : String → Bool) : SessionFileSet → List String
  | [] => []
  | (n, _) :: rest =>
    if wfail n then [n] else n :: attemptedWrites wfail rest

/-- The writes of the `for` loop in `saveSessionLocally`: returns the
directory contents after the loop and whether a write threw (the
exception is caught by the surrounding `catch`, which only logs). -/
def writeFiles (wfail : String → Bool) (d : List (String × String)) :
    SessionFileSet → List (String × String) × Bool
  | [] => (d, false)
  | (n, c) :: rest =>
    if wfail n then (d, true) else writeFiles wfail (setEntry d n c) rest

/-- Model of `saveSessionLocally(files)`: `mkdirSync` the directory if absent, then
write each entry; any exception is caught and logged, so the function
always returns normally. The `Bool` records whether a failure was logged. -/
def saveSessionLocally (wfail : String → Bool) (st : Store)
    (files : SessionFileSet) : Store × Bool :=
  let d := st.dir.getD []
  let r := writeFiles wfail d files
  (⟨some r.1⟩, r.2)

/-- One step of the Session Provider: a call to `fetchSessionFromManager`
or the `setTimeout` wait between attempts. -/
inductive ProvAct where
  | fetchCall
  | wait (ms : Nat)
  deriving Repr, DecidableEq

/-- The acquisition loop of `getAuthState` (lines 49–54): fetch once, and
`while (!files)` wait `SESSION_RETRY_INTERVAL` then fetch again. `k` is the
current attempt index, `fuel` bounds the unrolling (the JS loop is
unbounded; `none` means the loop is still running after `fuel` attempts).
On success it returns the log of actions performed and the file set. -/
def fetchLoop (retryMs : Nat) (fetch : Nat → Option SessionFileSet) :
    Nat → Nat → Option (List ProvAct × SessionFileSet)
  | _, 0 => none
  | k, fuel + 1 =>
    match fetch k with
    | some fs => some ([ProvAct.fetchCall], fs)
    | none =>
      match fetchLoop retryMs fetch (k + 1) fuel with
      | none => none
      | some (log, fs) =>
        some (ProvAct.fetchCall :: ProvAct.wait retryMs :: log, fs)

/-- The action log of a run of the fetch loop that fails `k` times before
succeeding: each failed call is followed by one retry wait. -/
def expectedLog (retryMs : Nat) : Nat → List ProvAct
  | 0 => [ProvAct.fetchCall]
  | k + 1 => ProvAct.fetchCall :: ProvAct.wait retryMs :: expectedLog retryMs k

/-- Failure of `useMultiFileAuthState`: present files cannot be parsed. -/
inductive AuthErr where
  | CorruptState
  deriving Repr, DecidableEq

/-- The in-memory auth state built by `useMultiFileAuthState(AUTH_DIR)`:
derived from (and backed by) the directory contents. -/
structure AuthState where
  backing : List (String × String)
  deriving Repr, DecidableEq

/-- Model of `useMultiFileAuthState(AUTH_DIR)`: reconstructs the auth state from the
directory, failing with `CorruptState` when the files do not parse. -/
def loadAuthState (corrupt : List (String × String) → Bool) (st : Store) :
    Except AuthErr AuthState :=
  let d := st.dir.getD []
  if corrupt d then Except.error AuthErr.CorruptState else Except.ok ⟨d⟩

/-- Outcome of `getAuthState`: the result value (or the propagating
exception), the store afterwards, and the Session Provider actions
performed. -/
structure GAOut where
  result : Except AuthErr AuthState
  store : Store
  log : List ProvAct
  deriving Repr

/-- Model of `getAuthState()` (lines 42–59): local-first, else fetch loop, then
`saveSessionLocally` and `useMultiFileAuthState`. A `CorruptState` from
the final load is not caught anywhere in the function and so propagates
in `result`; `none` means the fetch loop is still running at `fuel`. -/
def getAuthState (corrupt : List (String × String) → Bool)
    (wfail : String → Bool) (retryMs : Nat)
    (fetch : Nat → Option SessionFileSet) (fuel : Nat) (st : Store) :
    Option GAOut :=
  if hasLocalSession st then
    some ⟨loadAuthState corrupt st, st, []⟩
  else
    match fetchLoop retryMs fetch 0 fuel with
    | none => none
    | some (log, fs) =>
      let st2 := (saveSessionLocally wfail st fs).1
      some ⟨loadAuthState corrupt st2, st2, log⟩

/-- Status code `DisconnectReason.loggedOut` from the messaging library. -/
def DisconnectReason.loggedOut : Nat := 401

/-- Status code `DisconnectReason.restartRequired` from the messaging library. -/
def DisconnectReason.restartRequired : Nat := 515

/-- A `connection.update` event as destructured by the handler:
`connection === 'open'`, or `connection === 'close'` with the status code
`lastDisconnect?.error?.output?.statusCode` (absent when the optional
chain hits `undefined`). -/
inductive ConnEv where
  | opened
  | closed (statusCode : Option Nat)
  deriving Repr, DecidableEq

/-- The module-level mutable state the `connection.update` handler touches,
plus an observation log: `notifications` counts the startup messages sent
to `OWNER_NUMBER@s.whatsapp.net`, and `scheduled` records the delays of the
`setTimeout(() => startBot(), d)` calls in order. Every scheduled entry
re-runs `startBot()`, i.e. the whole Session Provider + connect sequence. -/
structure Sys where
  store : Store
  isFirstConnect : Bool
  notifications : Nat
  scheduled : List Nat
  deriving Repr, DecidableEq

/-- The `connection.update` handler (lines 86–116), parametrised by the
configured `RECONNECT_INTERVAL` (from `settings.js`, not in the analysed
sources). On `open`, a first connect sends the owner notification and
clears the flag. On `close`, the status code is classified: logged-out
wipes the directory (`fs.rmSync(AUTH_DIR, { recursive: true, force: true })`),
resets the flag, and schedules `startBot` after `RECONNECT_INTERVAL`;
restart-required schedules `startBot` after a fixed 3000 ms; anything else
schedules `startBot` after `RECONNECT_INTERVAL`. -/
def onConnectionUpdate (reconnectMs : Nat) (s : Sys) (e : ConnEv) : Sys :=
  match e with
  | ConnEv.opened =>
    if s.isFirstConnect then
      { s with isFirstConnect := false, notifications := s.notifications + 1 }
    else s
  | ConnEv.closed code =>
    if code = some DisconnectReason.loggedOut then
      { s with store := ⟨none⟩, isFirstConnect := true,
               scheduled := s.scheduled ++ [reconnectMs] }
    else if code = some DisconnectReason.restartRequired then
      { s with scheduled := s.scheduled ++ [3000] }
    else
      { s with scheduled := s.scheduled ++ [reconnectMs] }

/-- Folding the handler over a sequence of `connection.update` events. -/
def runTrace (reconnectMs : Nat) (s : Sys) : List ConnEv → Sys
  | [] => s
  | e :: t => runTrace reconnectMs (onConnectionUpdate reconnectMs s e) t

/-- The process state at startup: flag true, no notification sent, nothing
scheduled, and some initial directory contents. -/
def initSys (st : Store) : Sys :=
  ⟨st, true, 0, []⟩

/-- Whether an event is a successful open. -/
def isOpenedEv : ConnEv → Bool
  | ConnEv.opened => true
  | ConnEv.closed _ => false

/-- Whether an event wipes the Credential Store (a logged-out close),
ending the current credential epoch. -/
def isWipeEv : ConnEv → Bool
  | ConnEv.closed code => code = some DisconnectReason.loggedOut
  | ConnEv.opened => false

/-- Spec-side notion: the credential epochs of an event trace, i.e. the
segments delimited by wipe events (the wipe itself belongs to no segment). -/
def specEpochSegments : List ConnEv → List (List ConnEv)
  | [] => [[]]
  | e :: t =>
    if isWipeEv e then [] :: specEpochSegments t
    else
      match specEpochSegments t with
      | [] => [[e]]
      | seg :: segs => (e :: seg) :: segs

/-- Spec-side notion: the number of credential epochs of a trace in which
at least one successful open occurs. -/
def specEpochsWithOpen (t : List ConnEv) : Nat :=
  ((specEpochSegments t).filter (fun seg => seg.any isOpenedEv)).length

/-- The handle bookkeeping of the source: `startBot` assigns the new socket
to the single module-level binding `sock` and attaches event handlers via
`sock.ev.on(...)`. Handlers of earlier sockets are never detached, so the
model keeps every handle id that ever received subscriptions. `sockRef` is
the handle the global `sock` currently points to; `nextId` numbers the
handles in creation order. -/
structure SupState where
  sys : Sys
  nextId : Nat
  subscribed : List Nat
  sockRef : Nat
  deriving Repr, DecidableEq

/-- The handle-creation part of one `startBot()` run: build a fresh socket
(a brand-new handle), point the global `sock` at it, and attach its event
subscriptions. Nothing detaches the previous handle. -/
def startBotHandle (st : SupState) : SupState :=
  { st with nextId := st.nextId + 1,
            subscribed := st.nextId :: st.subscribed,
            sockRef := st.nextId }

/-- Delivery of a `connection.update` event on handle `h`: the handler runs
iff `h` ever had subscriptions attached (the source has no staleness check,
so superseded handles still process events). -/
def deliver (reconnectMs : Nat) (st : SupState) (h : Nat) (e : ConnEv) :
    SupState :=
  if h ∈ st.subscribed then
    { st with sys := onConnectionUpdate reconnectMs st.sys e }
  else st

/-- The payload of an inbound message, with the four text sources the
handler probes (`conversation`, `extendedTextMessage.text`,
`imageMessage.caption`, `videoMessage.caption`). -/
structure MsgContent where
  conversation : Option String
  extendedText : Option String
  imageCaption : Option String
  videoCaption : Option String
  deriving Repr, DecidableEq

/-- Model of `msg.key`. -/
structure MsgKey where
  fromMe : Bool
  remoteJid : String
  participant : Option String
  senderPn : Option String
  deriving Repr, DecidableEq

/-- One element of the `messages` array of a `messages.upsert` event. -/
structure Msg where
  message : Option MsgContent
  key : MsgKey
  pushName : Option String
  deriving Repr, DecidableEq

/-- JS `a || b` for a possibly-absent string `a`: falls through on
`undefined` and on the empty string (both falsy). -/
def orFalsy (a : Option String) (b : String) : String :=
  match a with
  | some s => if s = "" then b else s
  | none => b

/-- The `body` extraction chain of the handler (lines 142–146). -/
def extractBody (m : MsgContent) : String :=
  orFalsy m.conversation
    (orFalsy m.extendedText (orFalsy m.imageCaption (orFalsy m.videoCaption "")))

/-- The configuration the message handler reads (`settings.js`, not in the
analysed sources, so carried as a parameter). -/
structure Cfg where
  autoRead : Bool
  autoTyping : Bool
  pfx : String
  botName : String
  botVersion : String
  ownerNumber : String
  deriving Repr, DecidableEq

/-- An observable side effect of the `messages.upsert` handler:
`sock.readMessages`, `sock.sendPresenceUpdate('composing', ...)`, or
`sock.sendMessage`. -/
inductive Effect where
  | readReceipt (key : MsgKey)
  | typing (jid : String)
  | send (jid : String) (text : String)
  deriving Repr, DecidableEq

/-- JS `s.split(/\s+/)` after a `trim`: split on whitespace runs. -/
def splitWs (s : String) : List String :=
  (s.split (fun c => c.isWhitespace)).filter (fun t => t ≠ "")

/-- The per-message body of the `messages.upsert` loop (lines 123–178),
returning the side effects it performs in order. Messages without content
and messages sent by the bot itself are skipped before any effect; the
read receipt fires (when `AUTO_READ`) even for non-command messages, the
typing presence only for prefixed ones, and the dispatch handles `ping`
and `alive`. -/
def handleMessage (cfg : Cfg) (m : Msg) : List Effect :=
  match m.message with
  | none => []
  | some content =>
    if m.key.fromMe then []
    else
      let sender := m.key.remoteJid
      let body := extractBody content
      let readFx := if cfg.autoRead then [Effect.readReceipt m.key] else []
      let typingFx :=
        if cfg.autoTyping && body.startsWith cfg.pfx then [Effect.typing sender]
        else []
      let cmdFx :=
        if body.startsWith cfg.pfx then
          let args := splitWs ((body.drop cfg.pfx.length).trim)
          let command := (args.headD "").toLower
          if command = "ping" then [Effect.send sender "Pong"]
          else if command = "alive" then
            [Effect.send sender (cfg.botName ++ " v" ++ cfg.botVersion)]
          else []
        else []
      readFx ++ typingFx ++ cmdFx

/-- The `messages.upsert` handler (lines 120–180): batches whose `type` is
not `notify` are dropped whole; otherwise each message is processed in
order. -/
def messagesUpsert (cfg : Cfg) (ty : String) (msgs : List Msg) : List Effect :=
  if ty ≠ "notify" then []
  else (msgs.map (handleMessage cfg)).flatten

/-- Spec-side notion: among a list of epoch segments, how many contain a
successful open. -/
def countOpenSegs (segs : List (List ConnEv)) : Nat :=
  (segs.filter (fun seg => seg.any isOpenedEv)).length

/-- Spec-side notion: the number of startup notifications still to be sent
over the remainder `t` of a trace, given whether the current epoch has
already seen an open (`flag` is the current `isFirstConnect`). -/
def payoff (flag : Bool) (t : List ConnEv) : Nat :=
  (if flag && ((specEpochSegments t).headD []).any isOpenedEv then 1 else 0)
    + countOpenSegs (specEpochSegments t).tail

/- ------------------------------------------------------------------ -/
/- Theorems                                                            -/
/- ------------------------------------------------------------------ -/

/-- Every successful run of the fetch loop issued at least one remote
fetch call. -/
theorem fetchLoop_performs_fetch (retryMs : Nat)
    (fetch : Nat → Option SessionFileSet) (k fuel : Nat) (log : List ProvAct)
    (fs : SessionFileSet) (h : fetchLoop retryMs fetch k fuel = some (log, fs)) :
    ProvAct.fetchCall ∈ log := by
  cases fuel with
  | zero => simp [fetchLoop] at h
  | succ n =>
    rw [fetchLoop] at h
    cases hf : fetch k with
    | some fs2 =>
      rw [hf] at h
      simp at h
      rcases h with ⟨h1, h2⟩
      subst h1
      simp
    | none =>
      rw [hf] at h
      cases hrec : fetchLoop retryMs fetch (k + 1) n with
      | none => rw [hrec] at h; simp at h
      | some p =>
        cases p with
        | mk lg fs2 =>
          rw [hrec] at h
          simp at h
          rcases h with ⟨h1, h2⟩
          subst h1
          simp

/-- C1: a disconnect classified as logged-out wipes the Credential Store
(the session directory is removed, hence empty afterwards), resets
`isFirstConnect` to `true`, and appends a `startBot` restart scheduled
after the configured reconnect interval; since the wiped store has no
local session, any completed run of the scheduled `getAuthState` performs
a remote fetch, i.e. the Session Provider re-runs from scratch. -/
theorem c1_loggedOut_wipes_resets_restarts (reconnectMs : Nat) (s : Sys) :
    (onConnectionUpdate reconnectMs s
      (ConnEv.closed (some DisconnectReason.loggedOut))).store.dir = none ∧
    (onConnectionUpdate reconnectMs s
      (ConnEv.closed (some DisconnectReason.loggedOut))).isFirstConnect = true ∧
    (onConnectionUpdate reconnectMs s
      (ConnEv.closed (some DisconnectReason.loggedOut))).scheduled
      = s.scheduled ++ [reconnectMs] ∧
    hasLocalSession (onConnectionUpdate reconnectMs s
      (ConnEv.closed (some DisconnectReason.loggedOut))).store = false ∧
    (∀ corrupt wfail retryMs fetch fuel r,
      getAuthState corrupt wfail retryMs fetch fuel
        (onConnectionUpdate reconnectMs s
          (ConnEv.closed (some DisconnectReason.loggedOut))).store = some r →
      ProvAct.fetchCall ∈ r.log) := by
  refine ⟨?_, ?_, ?_, ?_, ?_⟩ <;>
    simp only [onConnectionUpdate, if_pos rfl]
  · rfl
  · rfl
  · rfl
  · rfl
  · intro corrupt wfail retryMs fetch fuel r hr
    rw [getAuthState] at hr
    simp only [hasLocalSession] at hr
    simp at hr
    cases hloop : fetchLoop retryMs fetch 0 fuel with
    | none => rw [hloop] at hr; simp at hr
    | some p =>
      cases p with
      | mk lg fs =>
        rw [hloop] at hr
        simp at hr
        have hlog : r.log = lg := by rw [← hr]
        rw [hlog]
        exact fetchLoop_performs_fetch retryMs fetch 0 fuel lg fs hloop

/-- C5: a disconnect classified as restart-required leaves the Credential
Store (and hence the state any `AuthState` is loaded from) unchanged,
leaves `isFirstConnect` unchanged, and schedules a reopen after the fixed
3000 ms delay, which is shorter than the configured reconnect interval
whenever that interval exceeds 3000 ms (its value lives in `settings.js`,
outside the analysed sources). -/
theorem c5_restartRequired_frame (reconnectMs : Nat) (s : Sys)
    (h : 3000 < reconnectMs) :
    (onConnectionUpdate reconnectMs s
      (ConnEv.closed (some DisconnectReason.restartRequired))).store = s.store ∧
    (onConnectionUpdate reconnectMs s
      (ConnEv.closed (some DisconnectReason.restartRequired))).isFirstConnect
      = s.isFirstConnect ∧
    (onConnectionUpdate reconnectMs s
      (ConnEv.closed (some DisconnectReason.restartRequired))).notifications
      = s.notifications ∧
    (onConnectionUpdate reconnectMs s
      (ConnEv.closed (some DisconnectReason.restartRequired))).scheduled
      = s.scheduled ++ [3000] ∧
    3000 < reconnectMs := by
  refine ⟨?_, ?_, ?_, ?_, h⟩ <;>
    simp [onConnectionUpdate, DisconnectReason.loggedOut,
      DisconnectReason.restartRequired]

/-- Witness for C5 at a concrete interval and state. -/
theorem c5_restartRequired_frame_witness :
    (onConnectionUpdate 5000 (⟨⟨some [("creds.json", "x")]⟩, false, 1, []⟩ : Sys)
      (ConnEv.closed (some DisconnectReason.restartRequired))).store
      = (⟨some [("creds.json", "x")]⟩ : Store) ∧
    (onConnectionUpdate 5000 (⟨⟨some [("creds.json", "x")]⟩, false, 1, []⟩ : Sys)
      (ConnEv.closed (some DisconnectReason.restartRequired))).scheduled
      = ([] : List Nat) ++ [3000] := by
  have h := c5_restartRequired_frame 5000
    (⟨⟨some [("creds.json", "x")]⟩, false, 1, []⟩ : Sys) (by decide)
  exact ⟨h.1, h.2.2.2.1⟩

/-- C6: when the identity credential file is present locally,
`getAuthState` loads the local state and returns at once: the store is
untouched and the Session Provider log is empty, so no remote fetch (and
no retry wait) is issued, for any fuel. -/
theorem c6_local_session_no_fetch (corrupt : List (String × String) → Bool)
    (wfail : String → Bool) (retryMs : Nat)
    (fetch : Nat → Option SessionFileSet) (fuel : Nat) (st : Store)
    (h : hasLocalSession st = true) :
    getAuthState corrupt wfail retryMs fetch fuel st =
      some ⟨loadAuthState corrupt st, st, []⟩ := by
  rw [getAuthState, if_pos h]

/-- Witness for C6 at a concrete store with a local `creds.json`. -/
theorem c6_local_session_no_fetch_witness :
    getAuthState (fun _ => false) (fun _ => false) 1000 (fun _ => none) 0
        (⟨some [("creds.json", "x")]⟩ : Store) =
      some ⟨Except.ok ⟨[("creds.json", "x")]⟩, ⟨some [("creds.json", "x")]⟩, []⟩ := by
  have h := c6_local_session_no_fetch (fun _ => false) (fun _ => false) 1000
    (fun _ => none) 0 (⟨some [("creds.json", "x")]⟩ : Store) (by decide)
  rw [h]
  rfl

/-- Helper: a run of the fetch loop whose first success (any truthy
`files`, empty or not) is at attempt `n` terminates with exactly the log
of `n` failed calls each followed by one retry wait, then the successful
call. Stated from an arbitrary starting attempt `k` for the induction. -/
theorem fetchLoop_first_success (retryMs : Nat)
    (fetch : Nat → Option SessionFileSet) :
    ∀ (n k fuel : Nat) (fs : SessionFileSet),
      (∀ j, j < n → fetch (k + j) = none) → fetch (k + n) = some fs →
      n < fuel →
      fetchLoop retryMs fetch k fuel = some (expectedLog retryMs n, fs) := by
  intro n
  induction n with
  | zero =>
    intro k fuel fs _ h2 hfuel
    cases fuel with
    | zero => omega
    | succ m =>
      rw [fetchLoop]
      rw [Nat.add_zero] at h2
      rw [h2]
      rfl
  | succ n ih =>
    intro k fuel fs h1 h2 hfuel
    cases fuel with
    | zero => omega
    | succ m =>
      have hk : fetch k = none := by
        have := h1 0 (Nat.succ_pos n)
        rwa [Nat.add_zero] at this
      rw [fetchLoop, hk]
      have hrec : fetchLoop retryMs fetch (k + 1) m =
          some (expectedLog retryMs n, fs) := by
        apply ih
        · intro j hj
          have := h1 (j + 1) (by omega)
          rwa [show k + (j + 1) = k + 1 + j by omega] at this
        · rwa [show k + 1 + n = k + (n + 1) by omega]
        · omega
      rw [hrec]
      rfl

/-- Helper: while every fetch fails, the loop never terminates, whatever
the fuel — the JS `while (!files)` has no maximum attempt count. -/
theorem fetchLoop_all_fail (retryMs : Nat)
    (fetch : Nat → Option SessionFileSet) (h : ∀ j, fetch j = none) :
    ∀ (fuel k : Nat), fetchLoop retryMs fetch k fuel = none := by
  intro fuel
  induction fuel with
  | zero => intro k; rfl
  | succ m ih =>
    intro k
    rw [fetchLoop, h k, ih (k + 1)]

/-- C2 counterexample: the loop in `getAuthState` retries only on a falsy
`files` value, so a manager response whose `files` is an empty object
(truthy in JS, modelled as `some []`) terminates the loop with an empty
SessionFileSet — the claim that it terminates only on a non-empty set is
false. -/
theorem c2_counterexample :
    fetchLoop 1000 (fun _ => some []) 0 1 =
      some ([ProvAct.fetchCall], ([] : SessionFileSet)) ∧
    ¬ (∀ log fs, fetchLoop 1000 (fun _ => some []) 0 1 = some (log, fs) →
        fs ≠ ([] : SessionFileSet)) := by
  refine ⟨rfl, fun hcl => ?_⟩
  exact hcl [ProvAct.fetchCall] [] rfl rfl

/-- C2 (amended): when no local session exists, the fetch loop terminates
exactly when a fetch returns a non-null `files` value (possibly an empty
set); every failed fetch is followed by one wait of the fixed session-retry
interval before the next attempt; and the loop has no maximum attempt
count — if every fetch fails it never terminates, while a first success at
any attempt `n` is reached given fuel beyond `n`. -/
theorem c2_fetch_loop_retries (retryMs : Nat)
    (fetch : Nat → Option SessionFileSet) :
    (∀ (n fuel : Nat) (fs : SessionFileSet),
      (∀ j, j < n → fetch j = none) → fetch n = some fs → n < fuel →
      fetchLoop retryMs fetch 0 fuel = some (expectedLog retryMs n, fs)) ∧
    ((∀ j, fetch j = none) → ∀ fl, fetchLoop retryMs fetch 0 fl = none) := by
  constructor
  · intro n fuel fs h1 h2 hfuel
    apply fetchLoop_first_success retryMs fetch n 0 fuel fs
    · intro j hj
      simpa using h1 j hj
    · simpa using h2
    · exact hfuel
  · intro hall fl
    exact fetchLoop_all_fail retryMs fetch hall fl 0

/-- Witness for C2 (amended): two failures and then a success at attempt 2
give the log fetch, wait, fetch, wait, fetch; a constantly failing fetch
leaves the loop running at fuel 9. -/
theorem c2_fetch_loop_retries_witness :
    fetchLoop 750 (fun j => if j = 2 then some [("creds.json", "x")] else none)
        0 5 =
      some ([ProvAct.fetchCall, ProvAct.wait 750, ProvAct.fetchCall,
             ProvAct.wait 750, ProvAct.fetchCall], [("creds.json", "x")]) ∧
    fetchLoop 750 (fun _ => none) 0 9 = none := by
  constructor
  · have h := (c2_fetch_loop_retries 750
      (fun j => if j = 2 then some [("creds.json", "x")] else none)).1 2 5
      [("creds.json", "x")]
      (by intro j hj; interval_cases j <;> rfl) (by rfl) (by omega)
    rw [h]
    rfl
  · exact (c2_fetch_loop_retries 750 (fun _ => none)).2 (fun _ => rfl) 9

/-- Witness for C1 at a concrete state, including the re-fetch conjunct
instantiated at concrete oracles. -/
theorem c1_loggedOut_wipes_resets_restarts_witness :
    (onConnectionUpdate 5000 (⟨⟨some [("creds.json", "x")]⟩, false, 1, []⟩ : Sys)
      (ConnEv.closed (some DisconnectReason.loggedOut))).store.dir = none ∧
    (onConnectionUpdate 5000 (⟨⟨some [("creds.json", "x")]⟩, false, 1, []⟩ : Sys)
      (ConnEv.closed (some DisconnectReason.loggedOut))).isFirstConnect = true ∧
    ProvAct.fetchCall ∈
      (⟨Except.ok ⟨[("creds.json", "y")]⟩, ⟨some [("creds.json", "y")]⟩,
        [ProvAct.fetchCall]⟩ : GAOut).log := by
  have h := c1_loggedOut_wipes_resets_restarts 5000
    (⟨⟨some [("creds.json", "x")]⟩, false, 1, []⟩ : Sys)
  refine ⟨h.1, h.2.1, ?_⟩
  exact h.2.2.2.2 (fun _ => false) (fun _ => false) 100
    (fun _ => some [("creds.json", "y")]) 1
    ⟨Except.ok ⟨[("creds.json", "y")]⟩, ⟨some [("creds.json", "y")]⟩,
      [ProvAct.fetchCall]⟩ (by rfl)

/-- Helper: over a prefix with no write failures, the write loop processes
the prefix and then continues with the remaining entries. -/
theorem writeFiles_append_ok (wfail : String → Bool) :
    ∀ (pre rest : SessionFileSet) (d : List (String × String)),
      (∀ p ∈ pre, wfail p.1 = false) →
      writeFiles wfail d (pre ++ rest) =
        writeFiles wfail (writeFiles wfail d pre).1 rest ∧
      (writeFiles wfail d pre).2 = false := by
  intro pre
  induction pre with
  | nil => intro rest d _; exact ⟨rfl, rfl⟩
  | cons p t ih =>
    intro rest d hok
    cases p with
    | mk n c =>
      have hn : wfail n = false := hok (n, c) (List.mem_cons_self _ _)
      have ht : ∀ q ∈ t, wfail q.1 = false := fun q hq =>
        hok q (List.mem_cons_of_mem _ hq)
      constructor
      · show writeFiles wfail d ((n, c) :: (t ++ rest)) = _
        rw [writeFiles, hn]
        simp only [Bool.false_eq_true, if_false]
        rw [(ih rest (setEntry d n c) ht).1]
        congr 1
        rw [writeFiles, hn]
        simp
      · rw [writeFiles, hn]
        simp only [Bool.false_eq_true, if_false]
        exact (ih rest (setEntry d n c) ht).2

/-- Helper: the attempted filenames over a clean prefix followed by a
failing entry are exactly the prefix names plus the failing one. -/
theorem attemptedWrites_stops (wfail : String → Bool) :
    ∀ (pre : SessionFileSet) (n c : String) (rest : SessionFileSet),
      (∀ p ∈ pre, wfail p.1 = false) → wfail n = true →
      attemptedWrites wfail (pre ++ (n, c) :: rest) =
        pre.map Prod.fst ++ [n] := by
  intro pre
  induction pre with
  | nil =>
    intro n c rest _ hn
    show attemptedWrites wfail ((n, c) :: rest) = [n]
    rw [attemptedWrites, hn]
    simp
  | cons p t ih =>
    intro n c rest hok hn
    cases p with
    | mk m v =>
      have hm : wfail m = false := hok (m, v) (List.mem_cons_self _ _)
      have ht : ∀ q ∈ t, wfail q.1 = false := fun q hq =>
        hok q (List.mem_cons_of_mem _ hq)
      show attemptedWrites wfail ((m, v) :: (t ++ (n, c) :: rest)) = _
      rw [attemptedWrites, hm]
      simp only [Bool.false_eq_true, if_false]
      rw [ih n c rest ht hn]
      rfl

/-- C3 counterexample: with a file set of two entries where writing the
first fails, the second entry is never attempted — the claim that a write
failure on one file does not prevent attempting the rest is false.
(`saveSessionLocally` wraps the whole loop in a single try/catch, so the
first throwing `writeFileSync` aborts the loop.) -/
theorem c3_counterexample :
    (("b", "y") ∈ [("a", "x"), ("b", "y")]) ∧
    attemptedWrites (fun n => n == "a") [("a", "x"), ("b", "y")] = ["a"] ∧
    "b" ∉ attemptedWrites (fun n => n == "a") [("a", "x"), ("b", "y")] := by
  refine ⟨by decide, by decide, by decide⟩

/-- C3 (amended): a write failure on one file aborts the writes of all
later files in that save call (they are not attempted), but the failure is
caught and logged — `saveSessionLocally` returns normally with the error
flag set, keeping the writes made before the failure, and the process
continues. -/
theorem c3_save_soft_error (wfail : String → Bool) (st : Store)
    (pre : SessionFileSet) (n c : String) (rest : SessionFileSet)
    (hok : ∀ p ∈ pre, wfail p.1 = false) (hn : wfail n = true) :
    attemptedWrites wfail (pre ++ (n, c) :: rest) = pre.map Prod.fst ++ [n] ∧
    (saveSessionLocally wfail st (pre ++ (n, c) :: rest)).2 = true ∧
    (saveSessionLocally wfail st (pre ++ (n, c) :: rest)).1.dir =
      some (writeFiles wfail (st.dir.getD []) pre).1 := by
  refine ⟨attemptedWrites_stops wfail pre n c rest hok hn, ?_, ?_⟩
  · show (writeFiles wfail (st.dir.getD []) (pre ++ (n, c) :: rest)).2 = true
    rw [(writeFiles_append_ok wfail pre ((n, c) :: rest) (st.dir.getD []) hok).1]
    rw [writeFiles, hn]
    simp
  · show some (writeFiles wfail (st.dir.getD []) (pre ++ (n, c) :: rest)).1 = _
    rw [(writeFiles_append_ok wfail pre ((n, c) :: rest) (st.dir.getD []) hok).1]
    rw [writeFiles, hn]
    simp

/-- Witness for C3 (amended) at a concrete two-file set failing on the
second file. -/
theorem c3_save_soft_error_witness :
    attemptedWrites (fun n => n == "b") ([("a", "x")] ++ ("b", "y") :: [])
        = [("a", "x")].map Prod.fst ++ ["b"] ∧
      (saveSessionLocally (fun n => n == "b") ⟨none⟩
          ([("a", "x")] ++ ("b", "y") :: [])).2 = true ∧
      (saveSessionLocally (fun n => n == "b") ⟨none⟩
          ([("a", "x")] ++ ("b", "y") :: [])).1.dir =
        some (writeFiles (fun n => n == "b")
          ((⟨none⟩ : Store).dir.getD []) [("a", "x")]).1 :=
  c3_save_soft_error (fun n => n == "b") ⟨none⟩ [("a", "x")] "b" "y" []
    (by decide) (by decide)

/-- Helper: an overwrite of the entry for `n` makes `n` readable with the
new content. -/
theorem getFile_setEntry_self (n c : String) :
    ∀ d : List (String × String), getFile (setEntry d n c) n = some c := by
  intro d
  induction d with
  | nil => simp [setEntry, getFile]
  | cons p t ih =>
    by_cases hm : p.1 = n
    · simp [setEntry, getFile, List.any_cons, hm]
    · have hstep : getFile (setEntry (p :: t) n c) n = getFile (setEntry t n c) n := by
        rw [setEntry, setEntry]
        by_cases ht : t.any (fun q => q.1 = n)
        · rw [if_pos (by simp [List.any_cons, ht]), if_pos ht]
          simp only [List.map_cons, if_neg hm]
          unfold getFile
          rw [List.find?_cons_of_neg _ (by simpa using hm)]
        · rw [if_neg (by simp [List.any_cons, hm, ht]), if_neg ht]
          simp only [List.cons_append]
          unfold getFile
          rw [List.find?_cons_of_neg _ (by simpa using hm)]
      rw [hstep, ih]

/-- Helper: the overwrite map of `setEntry` only touches entries keyed `n`,
so reads of another key are unchanged. -/
theorem getFile_map_setKey (n c m : String) (hmn : m ≠ n) :
    ∀ t : List (String × String),
      getFile (t.map (fun p => if p.1 = n then (n, c) else p)) m = getFile t m := by
  intro t
  induction t with
  | nil => rfl
  | cons q t ih =>
    by_cases hq : q.1 = n
    · unfold getFile at ih ⊢
      simp only [List.map_cons, if_pos hq]
      rw [List.find?_cons_of_neg _ (by simp [Ne.symm hmn]),
          List.find?_cons_of_neg _ (by simp [hq, Ne.symm hmn])]
      exact ih
    · unfold getFile at ih ⊢
      simp only [List.map_cons, if_neg hq]
      by_cases hqm : q.1 = m
      · rw [List.find?_cons_of_pos _ (by simpa using hqm),
            List.find?_cons_of_pos _ (by simpa using hqm)]
      · rw [List.find?_cons_of_neg _ (by simpa using hqm),
            List.find?_cons_of_neg _ (by simpa using hqm)]
        exact ih

/-- Helper: writing the entry for `n` leaves reads of other keys unchanged. -/
theorem getFile_setEntry_ne (n c m : String) (hmn : m ≠ n)
    (d : List (String × String)) :
    getFile (setEntry d n c) m = getFile d m := by
  rw [setEntry]
  by_cases hd : d.any (fun p => p.1 = n)
  · rw [if_pos hd]
    exact getFile_map_setKey n c m hmn d
  · rw [if_neg hd]
    unfold getFile
    rw [List.find?_append]
    have hlast : List.find? (fun p => decide (p.1 = m)) [(n, c)] = none := by
      simp [Ne.symm hmn]
    rw [hlast]
    simp

/-- Helper: the write loop leaves reads of keys outside the file set
unchanged. -/
theorem getFile_writeFiles_notMem (wfail : String → Bool) (m : String) :
    ∀ (files : SessionFileSet) (d : List (String × String)),
      m ∉ files.map Prod.fst →
      getFile (writeFiles wfail d files).1 m = getFile d m := by
  intro files
  induction files with
  | nil => intro d _; rfl
  | cons p t ih =>
    intro d hm
    cases p with
    | mk k v =>
      have hk : m ≠ k := by
        intro h
        exact hm (by simp [h])
      have ht : m ∉ t.map Prod.fst := by
        intro h
        exact hm (by simp [h])
      rw [writeFiles]
      by_cases hw : wfail k = true
      · rw [if_pos hw]
      · rw [if_neg hw]
        rw [ih (setEntry d k v) ht]
        exact getFile_setEntry_ne k v m hk d

/-- Helper: after a failure-free write of a file set with distinct names,
every entry is readable back with its content. -/
theorem getFile_writeFiles_mem (wfail : String → Bool) :
    ∀ (files : SessionFileSet) (d : List (String × String)) (n c : String),
      (files.map Prod.fst).Nodup → (∀ p ∈ files, wfail p.1 = false) →
      (n, c) ∈ files →
      getFile (writeFiles wfail d files).1 n = some c := by
  intro files
  induction files with
  | nil =>
    intro d n c _ _ hmem
    simp at hmem
  | cons p t ih =>
    intro d n c hnd hok hmem
    cases p with
    | mk k v =>
      have hkok : wfail k = false := hok (k, v) (List.mem_cons_self _ _)
      rw [writeFiles, if_neg (by simp [hkok])]
      rw [List.map_cons, List.nodup_cons] at hnd
      rcases List.mem_cons.mp hmem with heq | hmem2
      · have hn : n = k := congrArg Prod.fst heq
        have hc : c = v := congrArg Prod.snd heq
        subst hn
        subst hc
        rw [getFile_writeFiles_notMem wfail n t (setEntry d n c) hnd.1]
        exact getFile_setEntry_self n c d
      · exact ih (setEntry d k v) n c hnd.2
          (fun q hq => hok q (List.mem_cons_of_mem _ hq)) hmem2

/-- C8: for a SessionFileSet with distinct filenames whose writes all
succeed and whose persisted form parses, `save()` followed by `load()`
round-trips: the load succeeds and every entry of the input set is
retrievable unchanged from the resulting AuthState's backing files. -/
theorem c8_save_load_roundtrip (wfail : String → Bool)
    (corrupt : List (String × String) → Bool) (st : Store)
    (files : SessionFileSet) (hnd : (files.map Prod.fst).Nodup)
    (hok : ∀ p ∈ files, wfail p.1 = false)
    (hc : corrupt ((saveSessionLocally wfail st files).1.dir.getD []) = false) :
    ∃ a, loadAuthState corrupt (saveSessionLocally wfail st files).1 =
        Except.ok a ∧
      ∀ n c, (n, c) ∈ files → getFile a.backing n = some c := by
  refine ⟨⟨(saveSessionLocally wfail st files).1.dir.getD []⟩, ?_, ?_⟩
  · rw [loadAuthState]
    simp only [hc, Bool.false_eq_true, if_false]
  · intro n c hmem
    show getFile ((saveSessionLocally wfail st files).1.dir.getD []) n = some c
    exact getFile_writeFiles_mem wfail files (st.dir.getD []) n c hnd hok hmem

/-- Witness for C8 at a concrete two-file set. -/
theorem c8_save_load_roundtrip_witness :
    ∃ a, loadAuthState (fun _ => false)
        (saveSessionLocally (fun _ => false) ⟨none⟩
          [("creds.json", "id"), ("keys.json", "k")]).1 = Except.ok a ∧
      ∀ n c, (n, c) ∈ [("creds.json", "id"), ("keys.json", "k")] →
        getFile a.backing n = some c :=
  c8_save_load_roundtrip (fun _ => false) (fun _ => false) ⟨none⟩
    [("creds.json", "id"), ("keys.json", "k")]
    (by decide) (by intro p _; rfl) (by rfl)

/-- C9: when no local session exists and the fetch loop has produced a
bundle, a `CorruptState` from the load right after the save propagates as
the result of the acquisition attempt, with the Session Provider log
exactly the loop's log — the corrupt load is not retried inside the fetch
loop; whereas with a parseable persisted bundle the attempt returns
`Except.ok` whatever the fetch-failure history and per-file write
failures, so those recoverable categories never surface an error. -/
theorem c9_corrupt_propagates (corrupt : List (String × String) → Bool)
    (wfail : String → Bool) (retryMs : Nat)
    (fetch : Nat → Option SessionFileSet) (fuel : Nat) (st : Store)
    (log : List ProvAct) (fs : SessionFileSet)
    (hlocal : hasLocalSession st = false)
    (hloop : fetchLoop retryMs fetch 0 fuel = some (log, fs)) :
    (corrupt ((saveSessionLocally wfail st fs).1.dir.getD []) = true →
      getAuthState corrupt wfail retryMs fetch fuel st =
        some ⟨Except.error AuthErr.CorruptState,
          (saveSessionLocally wfail st fs).1, log⟩) ∧
    (corrupt ((saveSessionLocally wfail st fs).1.dir.getD []) = false →
      getAuthState corrupt wfail retryMs fetch fuel st =
        some ⟨Except.ok ⟨(saveSessionLocally wfail st fs).1.dir.getD []⟩,
          (saveSessionLocally wfail st fs).1, log⟩) := by
  constructor
  · intro hcor
    rw [getAuthState, if_neg (by simp [hlocal]), hloop]
    simp only []
    congr 1
    rw [loadAuthState]
    simp only [hcor, if_true]
  · intro hcor
    rw [getAuthState, if_neg (by simp [hlocal]), hloop]
    simp only []
    congr 1
    rw [loadAuthState]
    simp only [hcor, Bool.false_eq_true, if_false]

/-- Witness for C9: a one-shot fetch with an always-corrupt parse yields
the propagating error; the same run with a parseable bundle yields ok. -/
theorem c9_corrupt_propagates_witness :
    getAuthState (fun _ => true) (fun _ => false) 100
        (fun _ => some [("creds.json", "x")]) 1 ⟨none⟩ =
      some ⟨Except.error AuthErr.CorruptState, ⟨some [("creds.json", "x")]⟩,
        [ProvAct.fetchCall]⟩ ∧
    getAuthState (fun _ => false) (fun _ => false) 100
        (fun _ => some [("creds.json", "x")]) 1 ⟨none⟩ =
      some ⟨Except.ok ⟨[("creds.json", "x")]⟩, ⟨some [("creds.json", "x")]⟩,
        [ProvAct.fetchCall]⟩ := by
  constructor
  · exact (c9_corrupt_propagates (fun _ => true) (fun _ => false) 100
      (fun _ => some [("creds.json", "x")]) 1 ⟨none⟩ [ProvAct.fetchCall]
      [("creds.json", "x")] rfl rfl).1 rfl
  · exact (c9_corrupt_propagates (fun _ => false) (fun _ => false) 100
      (fun _ => some [("creds.json", "x")]) 1 ⟨none⟩ [ProvAct.fetchCall]
      [("creds.json", "x")] rfl rfl).2 rfl

/-- C10: the `messages.upsert` handler drops whole batches whose upsert
type is not `notify`, and a message without content or marked `fromMe`
produces no side effects at all — no read receipt, no typing presence, no
command dispatch; the effects of a `notify` batch are exactly the
concatenation of its messages' effects, so skipped messages contribute
nothing. -/
theorem c10_message_guards (cfg : Cfg) (ty : String) (msgs : List Msg)
    (m : Msg) :
    (ty ≠ "notify" → messagesUpsert cfg ty msgs = []) ∧
    (m.message = none → handleMessage cfg m = []) ∧
    (m.key.fromMe = true → handleMessage cfg m = []) ∧
    messagesUpsert cfg "notify" msgs = (msgs.map (handleMessage cfg)).flatten := by
  refine ⟨?_, ?_, ?_, ?_⟩
  · intro hty
    rw [messagesUpsert, if_pos hty]
  · intro hm
    rw [handleMessage, hm]
  · intro hfm
    rw [handleMessage]
    cases hc : m.message with
    | none => rfl
    | some content => simp [hfm]
  · rw [messagesUpsert]
    simp

/-- Witness for C10: a contentless message and a self-sent message yield
no effects, and a non-notify batch is dropped whole. -/
theorem c10_message_guards_witness :
    messagesUpsert ⟨true, true, ".", "bot", "1", "1"⟩ "append"
      [⟨some ⟨some ".ping", none, none, none⟩,
        ⟨false, "x@s.whatsapp.net", none, none⟩, none⟩] = [] ∧
    handleMessage ⟨true, true, ".", "bot", "1", "1"⟩
      ⟨none, ⟨false, "x@s.whatsapp.net", none, none⟩, none⟩ = [] ∧
    handleMessage ⟨true, true, ".", "bot", "1", "1"⟩
      ⟨some ⟨some ".ping", none, none, none⟩,
        ⟨true, "x@s.whatsapp.net", none, none⟩, none⟩ = [] := by
  have h1 := c10_message_guards ⟨true, true, ".", "bot", "1", "1"⟩ "append"
    [⟨some ⟨some ".ping", none, none, none⟩,
      ⟨false, "x@s.whatsapp.net", none, none⟩, none⟩]
    ⟨none, ⟨false, "x@s.whatsapp.net", none, none⟩, none⟩
  have h2 := c10_message_guards ⟨true, true, ".", "bot", "1", "1"⟩ "append"
    ([] : List Msg)
    ⟨some ⟨some ".ping", none, none, none⟩,
      ⟨true, "x@s.whatsapp.net", none, none⟩, none⟩
  exact ⟨h1.1 (by decide), h1.2.1 rfl, h2.2.2.1 rfl⟩

/-- C7 counterexample: start a handle, supersede it with a second one (the
global reference now points at handle 1), then deliver a logged-out close
on the stale handle 0: its subscriptions were never voided, so the
handler runs and wipes the Credential Store — a superseded handle's event
changes system state, refuting the claim that such events are ignored. -/
theorem c7_counterexample :
    (startBotHandle (startBotHandle
        ⟨⟨⟨some [("creds.json", "x")]⟩, false, 1, []⟩, 0, [], 0⟩)).sockRef = 1 ∧
    (0 : Nat) ≠ (startBotHandle (startBotHandle
        ⟨⟨⟨some [("creds.json", "x")]⟩, false, 1, []⟩, 0, [], 0⟩)).sockRef ∧
    (deliver 5000 (startBotHandle (startBotHandle
        ⟨⟨⟨some [("creds.json", "x")]⟩, false, 1, []⟩, 0, [], 0⟩)) 0
      (ConnEv.closed (some DisconnectReason.loggedOut))).sys.store.dir = none ∧
    deliver 5000 (startBotHandle (startBotHandle
        ⟨⟨⟨some [("creds.json", "x")]⟩, false, 1, []⟩, 0, [], 0⟩)) 0
      (ConnEv.closed (some DisconnectReason.loggedOut)) ≠
      startBotHandle (startBotHandle
        ⟨⟨⟨some [("creds.json", "x")]⟩, false, 1, []⟩, 0, [], 0⟩) := by
  refine ⟨by decide, by decide, by decide, by decide⟩

/-- C7 (amended): each restart creates a brand-new handle and repoints the
single global socket reference at it, so exactly one handle is current;
but the superseded handles' event subscriptions are never detached: an
event delivered on any handle that ever subscribed — current or stale — is
processed by the shared-state handler, and only events on handles that
never subscribed are ignored. -/
theorem c7_stale_handles_processed (reconnectMs : Nat) (st : SupState)
    (h : Nat) (e : ConnEv) :
    (startBotHandle st).sockRef = st.nextId ∧
    (startBotHandle st).subscribed = st.nextId :: st.subscribed ∧
    (h ∈ st.subscribed →
      deliver reconnectMs st h e =
        { st with sys := onConnectionUpdate reconnectMs st.sys e }) ∧
    (h ∉ st.subscribed → deliver reconnectMs st h e = st) := by
  refine ⟨rfl, rfl, ?_, ?_⟩
  · intro hmem
    rw [deliver, if_pos hmem]
  · intro hmem
    rw [deliver, if_neg hmem]

/-- Witness for C7 (amended) at a concrete superseded handle. -/
theorem c7_stale_handles_processed_witness :
    (startBotHandle ⟨⟨⟨none⟩, true, 0, []⟩, 1, [0], 0⟩).sockRef = 1 ∧
    deliver 4000 ⟨⟨⟨none⟩, true, 0, []⟩, 2, [1, 0], 1⟩ 0 ConnEv.opened =
      { (⟨⟨⟨none⟩, true, 0, []⟩, 2, [1, 0], 1⟩ : SupState) with
          sys := onConnectionUpdate 4000 ⟨⟨none⟩, true, 0, []⟩ ConnEv.opened } ∧
    deliver 4000 ⟨⟨⟨none⟩, true, 0, []⟩, 2, [1, 0], 1⟩ 7 ConnEv.opened =
      ⟨⟨⟨none⟩, true, 0, []⟩, 2, [1, 0], 1⟩ := by
  have h0 := c7_stale_handles_processed 4000
    (⟨⟨⟨none⟩, true, 0, []⟩, 1, [0], 0⟩ : SupState) 0 ConnEv.opened
  have h1 := c7_stale_handles_processed 4000
    (⟨⟨⟨none⟩, true, 0, []⟩, 2, [1, 0], 1⟩ : SupState) 0 ConnEv.opened
  have h2 := c7_stale_handles_processed 4000
    (⟨⟨⟨none⟩, true, 0, []⟩, 2, [1, 0], 1⟩ : SupState) 7 ConnEv.opened
  exact ⟨h0.1, h1.2.2.1 (by decide), h2.2.2.2 (by decide)⟩

/-- Helper: a trace always splits into at least one epoch segment. -/
theorem specEpochSegments_exists_cons (t : List ConnEv) :
    ∃ seg segs, specEpochSegments t = seg :: segs := by
  cases t with
  | nil => exact ⟨[], [], rfl⟩
  | cons e t =>
    rw [specEpochSegments]
    by_cases h : isWipeEv e = true
    · rw [if_pos h]
      exact ⟨[], specEpochSegments t, rfl⟩
    · rw [if_neg h]
      rcases hr : specEpochSegments t with _ | ⟨s, ss⟩
      · exact ⟨[e], [], rfl⟩
      · exact ⟨e :: s, ss, rfl⟩

/-- Helper: the epoch count over a cons of segments. -/
theorem countOpenSegs_cons (seg : List ConnEv) (segs : List (List ConnEv)) :
    countOpenSegs (seg :: segs) =
      (if seg.any isOpenedEv then 1 else 0) + countOpenSegs segs := by
  rw [countOpenSegs, countOpenSegs, List.filter_cons]
  by_cases h : seg.any isOpenedEv
  · rw [if_pos h, if_pos (by simpa using h), List.length_cons]
    omega
  · rw [if_neg h, if_neg (by simpa using h)]
    omega

/-- Helper: along any event trace, the notification counter grows by
exactly the payoff determined by the epoch structure of the remaining
trace and the current first-connect flag. -/
theorem runTrace_notifications (reconnectMs : Nat) :
    ∀ (t : List ConnEv) (s : Sys),
      (runTrace reconnectMs s t).notifications =
        s.notifications + payoff s.isFirstConnect t := by
  intro t
  induction t with
  | nil =>
    intro s
    rw [runTrace, payoff]
    simp [specEpochSegments, countOpenSegs]
  | cons e t ih =>
    intro s
    obtain ⟨seg, segs, hsegs⟩ := specEpochSegments_exists_cons t
    rw [runTrace, ih]
    cases e with
    | opened =>
      have hsegs2 : specEpochSegments (ConnEv.opened :: t) =
          (ConnEv.opened :: seg) :: segs := by
        rw [specEpochSegments, if_neg (by simp [isWipeEv]), hsegs]
      simp only [onConnectionUpdate]
      by_cases hf : s.isFirstConnect = true
      · rw [if_pos hf, hf]
        rw [payoff, payoff, hsegs, hsegs2]
        simp [isOpenedEv, List.any_cons]
        omega
      · rw [if_neg hf]
        rw [Bool.not_eq_true] at hf
        rw [hf]
        rw [payoff, payoff, hsegs, hsegs2]
        simp
    | closed code =>
      simp only [onConnectionUpdate]
      by_cases hw : code = some DisconnectReason.loggedOut
      · rw [if_pos hw]
        have hsegs3 : specEpochSegments (ConnEv.closed code :: t) =
            [] :: specEpochSegments t := by
          rw [specEpochSegments, if_pos (by simp [isWipeEv, hw])]
        rw [payoff, payoff, hsegs3, hsegs]
        simp only [List.headD_cons, List.tail_cons]
        rw [countOpenSegs_cons]
        simp
      · rw [if_neg hw]
        have hsegs4 : specEpochSegments (ConnEv.closed code :: t) =
            (ConnEv.closed code :: seg) :: segs := by
          rw [specEpochSegments, if_neg (by simp [isWipeEv, hw]), hsegs]
        by_cases hr : code = some DisconnectReason.restartRequired
        · rw [if_pos hr]
          rw [payoff, payoff, hsegs, hsegs4]
          simp [isOpenedEv, List.any_cons]
        · rw [if_neg hr]
          rw [payoff, payoff, hsegs, hsegs4]
          simp [isOpenedEv, List.any_cons]

/-- C4: over any sequence of connection events starting from process
startup, the number of startup notifications sent to the owner equals the
number of credential epochs (segments between wipes) containing at least
one successful open — so an open, close, open sequence within one epoch
sends it once, while a wipe followed by re-acquisition and an open sends
it again in the new epoch. -/
theorem c4_notification_once_per_epoch (reconnectMs : Nat) (st : Store)
    (t : List ConnEv) :
    (runTrace reconnectMs (initSys st) t).notifications =
      specEpochsWithOpen t := by
  rw [runTrace_notifications reconnectMs t (initSys st)]
  obtain ⟨seg, segs, hsegs⟩ := specEpochSegments_exists_cons t
  show 0 + payoff true t = specEpochsWithOpen t
  rw [payoff, specEpochsWithOpen, hsegs]
  simp only [List.headD_cons, List.tail_cons, Bool.true_and]
  show _ = countOpenSegs (seg :: segs)
  rw [countOpenSegs_cons]
  omega
